import Mathlib

/-!
Shallow embedding of the rs-httpbin socket.io chat core
(`src/src/socket_io_chat.rs`) and of the `axum_garde` validation
extractor (`src/axum_garde/src/with_validation.rs`), with theorems
checking the natural-language specification against the code.

Modelling conventions for the chat core:
* `usize` arithmetic is `Nat` modulo `2 ^ 64`; `AtomicUsize::fetch_add`
  / `fetch_sub` wrap, and the trailing `+ 1` / `- 1` in
  `UserCnt::add_user` / `UserCnt::remove_user` wrap in a release build,
  so both operations are `(· + 1) % 2 ^ 64` resp. `(· + (2 ^ 64 - 1)) % 2 ^ 64`.
* Concurrency is modelled by linearisation: the `SeqCst` atomic counter and
  the per-socket extension map make every interleaving of handler bodies
  equivalent to some sequential trace of events, so theorems quantify over
  arbitrary event traces.
* socketioxide dispatch semantics: a handler whose `Extension::<Username>`
  extractor fails (no identity stored on the socket) is not invoked at all;
  `s.broadcast().emit` delivers to every other socket currently connected to
  the namespace and never to the originator; `s.emit` delivers only to the
  originator.
-/

namespace SocketIoChat

/-- The modulus of `usize` arithmetic (64-bit platform). -/
def USIZE : Nat := 2 ^ 64

/-- Model of `struct UserCnt(Arc<AtomicUsize>)`: the current value of the
shared atomic counter, as the unsigned integer it stores. -/
structure UserCnt where
  val : Nat
deriving DecidableEq, Repr

/-- Model of `UserCnt::add_user`: `fetch_add(1, SeqCst) + 1` — returns the
updated counter state together with the returned `usize`.  Both the stored
value and the returned value wrap modulo `2 ^ 64`. -/
def UserCnt.add_user (c : UserCnt) : UserCnt × Nat :=
  (⟨(c.val + 1) % USIZE⟩, (c.val + 1) % USIZE)

/-- Model of `UserCnt::remove_user`: `fetch_sub(1, SeqCst) - 1` — returns the
updated counter state together with the returned `usize`.  Subtraction of 1
on a `usize` is addition of `2 ^ 64 - 1` modulo `2 ^ 64`. -/
def UserCnt.remove_user (c : UserCnt) : UserCnt × Nat :=
  (⟨(c.val + (USIZE - 1)) % USIZE⟩, (c.val + (USIZE - 1)) % USIZE)

/-- One connected socket: its id and its `Username` extension slot
(`s.extensions.get::<Username>()`), empty until `add user` stores one. -/
structure Session where
  sid : Nat
  username : Option String
deriving DecidableEq, Repr

/-- The namespace state: the shared `UserCnt` and the set of currently
connected sockets (as a list with pairwise distinct ids). -/
structure ChatState where
  userCnt : UserCnt
  sessions : List Session
deriving DecidableEq, Repr

/-- The initial namespace state: counter `0`, no sockets. -/
def initState : ChatState := ⟨⟨0⟩, []⟩

/-- Inbound events of the chat namespace, each tagged with the socket id it
arrives on.  `connect` is the framework connection event; the remaining five
are the handlers registered in `on_connect` plus the implicit disconnect. -/
inductive InEvent where
  | connect (sid : Nat)
  | addUser (sid : Nat) (name : String)
  | newMessage (sid : Nat) (text : String)
  | typingStart (sid : Nat)
  | typingStop (sid : Nat)
  | disconnect (sid : Nat)
deriving DecidableEq, Repr

/-- The four payload shapes of `enum Res`. -/
inductive Res where
  | login (numUsers : Nat)
  | userEvent (numUsers : Nat) (username : String)
  | message (username : String) (message : String)
  | usernameOnly (username : String)
deriving DecidableEq, Repr

/-- Audience of an emission: `s.emit` (originator only) or
`s.broadcast().emit` (everyone else in the namespace). -/
inductive EmitKind where
  | toSelf
  | toOthers
deriving DecidableEq, Repr

/-- One call to `emit`: the originating socket, the audience kind, the wire
event name, the payload, and the recipient set computed at call time. -/
structure Emission where
  origin : Nat
  kind : EmitKind
  event : String
  payload : Res
  recipients : List Nat
deriving DecidableEq, Repr

/-- Socket lookup by id (the framework's routing of an inbound event to the
socket it arrived on). -/
def findSession (sessions : List Session) (sid : Nat) : Option Session :=
  sessions.find? (fun s => s.sid == sid)

/-- Model of `s.extensions.insert(Username(...))`: store the name in the
extension slot of socket `sid`. -/
def setUsername (sessions : List Session) (sid : Nat) (name : String) : List Session :=
  sessions.map (fun s => if s.sid == sid then { s with username := some name } else s)

/-- Remove socket `sid` from the connected set (disconnect). -/
def removeSession (sessions : List Session) (sid : Nat) : List Session :=
  sessions.filter (fun s => s.sid != sid)

/-- Recipient set of `s.broadcast().emit` issued by socket `sid`: every
socket currently in the namespace except the originator. -/
def othersOf (sessions : List Session) (sid : Nat) : List Nat :=
  (sessions.filter (fun s => s.sid != sid)).map Session.sid

/-- One dispatch step of the namespace: the handlers of `on_connect`
(`src/src/socket_io_chat.rs`, lines 56–93) plus connection bookkeeping.
A handler whose `Extension::<Username>` extractor fails (socket has no
stored identity) is not invoked, per socketioxide dispatch semantics. -/
def step (st : ChatState) (e : InEvent) : ChatState × List Emission :=
  match e with
  | .connect sid =>
    if (findSession st.sessions sid).isSome then (st, [])
    else ({ st with sessions := st.sessions ++ [⟨sid, none⟩] }, [])
  | .addUser sid name =>
    match findSession st.sessions sid with
    | none => (st, [])
    | some s =>
      if s.username.isSome then (st, [])
      else
        let r := st.userCnt.add_user
        ({ userCnt := r.1, sessions := setUsername st.sessions sid name },
         [⟨sid, .toSelf, "login", .login r.2, [sid]⟩,
          ⟨sid, .toOthers, "user joined", .userEvent r.2 name, othersOf st.sessions sid⟩])
  | .newMessage sid text =>
    match findSession st.sessions sid with
    | some s =>
      match s.username with
      | some u =>
        (st, [⟨sid, .toOthers, "new message", .message u text, othersOf st.sessions sid⟩])
      | none => (st, [])
    | none => (st, [])
  | .typingStart sid =>
    match findSession st.sessions sid with
    | some s =>
      match s.username with
      | some u =>
        (st, [⟨sid, .toOthers, "typing", .usernameOnly u, othersOf st.sessions sid⟩])
      | none => (st, [])
    | none => (st, [])
  | .typingStop sid =>
    match findSession st.sessions sid with
    | some s =>
      match s.username with
      | some u =>
        (st, [⟨sid, .toOthers, "stop typing", .usernameOnly u, othersOf st.sessions sid⟩])
      | none => (st, [])
    | none => (st, [])
  | .disconnect sid =>
    match findSession st.sessions sid with
    | none => (st, [])
    | some s =>
      match s.username with
      | none => ({ st with sessions := removeSession st.sessions sid }, [])
      | some u =>
        let r := st.userCnt.remove_user
        ({ userCnt := r.1, sessions := removeSession st.sessions sid },
         [⟨sid, .toOthers, "user left", .userEvent r.2 u, othersOf st.sessions sid⟩])

/-- Process a trace of events starting from `st`, collecting all emissions. -/
def runFrom (st : ChatState) : List InEvent → ChatState × List Emission
  | [] => (st, [])
  | e :: es =>
    let p := step st e
    let q := runFrom p.1 es
    (q.1, p.2 ++ q.2)

/-- Process a trace of events from the initial namespace state. -/
def runChat (events : List InEvent) : ChatState × List Emission :=
  runFrom initState events

/-- Number of connected sockets that have a registered identity
(the sessions in the Named state). -/
def countNamed (sessions : List Session) : Nat :=
  (sessions.filter (fun s => s.username.isSome)).length

/-- Events and payloads delivered to socket `sid` by a list of emissions,
in order. -/
def receivedBy (ems : List Emission) (sid : Nat) : List (String × Res) :=
  (ems.filter (fun em => em.recipients.contains sid)).map (fun em => (em.event, em.payload))

end SocketIoChat

namespace SocketIoChat

/-! ### Helper lemmas about the session list -/

theorem countNamed_eq_countP (L : List Session) :
    countNamed L = L.countP (fun s => s.username.isSome) := by
  rw [countNamed, List.countP_eq_length_filter]

theorem countNamed_append_anon (L : List Session) (sid : Nat) :
    countNamed (L ++ [⟨sid, none⟩]) = countNamed L := by
  simp [countNamed_eq_countP, List.countP_append, List.countP_cons]

theorem findSession_cons_self (a : Session) (L : List Session) (sid : Nat)
    (heq : a.sid = sid) : findSession (a :: L) sid = some a := by
  simp [findSession, List.find?, heq]

theorem findSession_cons_ne (a : Session) (L : List Session) (sid : Nat)
    (hne : a.sid ≠ sid) : findSession (a :: L) sid = findSession L sid := by
  have hb : (a.sid == sid) = false := by simpa using hne
  simp [findSession, List.find?, hb]

theorem setUsername_cons (a : Session) (L : List Session) (sid : Nat) (n : String) :
    setUsername (a :: L) sid n =
      (if a.sid == sid then { a with username := some n } else a) :: setUsername L sid n := by
  simp [setUsername]

theorem removeSession_cons_self (a : Session) (L : List Session) (sid : Nat)
    (heq : a.sid = sid) : removeSession (a :: L) sid = removeSession L sid := by
  simp [removeSession, List.filter_cons, heq]

theorem removeSession_cons_ne (a : Session) (L : List Session) (sid : Nat)
    (hne : a.sid ≠ sid) : removeSession (a :: L) sid = a :: removeSession L sid := by
  simp [removeSession, List.filter_cons, hne]

theorem setUsername_sids (L : List Session) (sid : Nat) (n : String) :
    (setUsername L sid n).map Session.sid = L.map Session.sid := by
  induction L with
  | nil => rfl
  | cons a L ih =>
    rw [setUsername_cons, List.map_cons, List.map_cons, ih]
    by_cases heq : a.sid = sid
    · simp [heq]
    · simp [heq]

theorem setUsername_of_forall_ne (L : List Session) (sid : Nat) (n : String)
    (h : ∀ s ∈ L, s.sid ≠ sid) : setUsername L sid n = L := by
  induction L with
  | nil => rfl
  | cons a L ih =>
    have ha : a.sid ≠ sid := h a (by simp)
    rw [setUsername_cons, ih (fun s hs => h s (by simp [hs]))]
    simp [ha]

theorem removeSession_of_forall_ne (L : List Session) (sid : Nat)
    (h : ∀ s ∈ L, s.sid ≠ sid) : removeSession L sid = L := by
  induction L with
  | nil => rfl
  | cons a L ih =>
    have ha : a.sid ≠ sid := h a (by simp)
    rw [removeSession_cons_ne a L sid ha, ih (fun s hs => h s (by simp [hs]))]

theorem countNamed_setUsername (L : List Session) (sid : Nat) (n : String) (s : Session)
    (hf : findSession L sid = some s) (hanon : s.username = none)
    (hnd : (L.map Session.sid).Nodup) :
    countNamed (setUsername L sid n) = countNamed L + 1 := by
  induction L with
  | nil => simp [findSession] at hf
  | cons a L ih =>
    simp only [List.map_cons, List.nodup_cons] at hnd
    by_cases heq : a.sid = sid
    · have has : a = s := by
        rw [findSession_cons_self a L sid heq] at hf
        exact Option.some.inj hf
      have hne : ∀ t ∈ L, t.sid ≠ sid := by
        intro t ht hts
        exact hnd.1 (heq ▸ hts ▸ List.mem_map_of_mem Session.sid ht)
      rw [setUsername_cons, setUsername_of_forall_ne L sid n hne]
      have hu : a.username = none := has ▸ hanon
      simp [countNamed_eq_countP, List.countP_cons, heq, hu]
    · have hf' : findSession L sid = some s := by
        rwa [findSession_cons_ne a L sid heq] at hf
      have hrec := ih hf' hnd.2
      have hb : (a.sid == sid) = false := by simpa using heq
      rw [setUsername_cons, if_neg (by simp [hb])]
      simp only [countNamed_eq_countP, List.countP_cons] at hrec ⊢
      omega

theorem countNamed_removeSession (L : List Session) (sid : Nat) (s : Session)
    (hf : findSession L sid = some s)
    (hnd : (L.map Session.sid).Nodup) :
    countNamed (removeSession L sid) + (if s.username.isSome then 1 else 0) = countNamed L := by
  induction L with
  | nil => simp [findSession] at hf
  | cons a L ih =>
    simp only [List.map_cons, List.nodup_cons] at hnd
    by_cases heq : a.sid = sid
    · have has : a = s := by
        rw [findSession_cons_self a L sid heq] at hf
        exact Option.some.inj hf
      have hne : ∀ t ∈ L, t.sid ≠ sid := by
        intro t ht hts
        exact hnd.1 (heq ▸ hts ▸ List.mem_map_of_mem Session.sid ht)
      rw [removeSession_cons_self a L sid heq, removeSession_of_forall_ne L sid hne]
      simp [countNamed_eq_countP, List.countP_cons, has]
    · have hf' : findSession L sid = some s := by
        rwa [findSession_cons_ne a L sid heq] at hf
      have hrec := ih hf' hnd.2
      rw [removeSession_cons_ne a L sid heq]
      simp only [countNamed_eq_countP, List.countP_cons] at hrec ⊢
      omega

theorem removeSession_sids_sublist (L : List Session) (sid : Nat) :
    ((removeSession L sid).map Session.sid).Sublist (L.map Session.sid) :=
  (List.filter_sublist L).map Session.sid

end SocketIoChat

namespace SocketIoChat

/-! ### Shape of each dispatch step -/

theorem step_connect_dup (st : ChatState) (sid : Nat)
    (hf : (findSession st.sessions sid).isSome) :
    step st (.connect sid) = (st, []) := by
  simp [step, hf]

theorem step_connect_new (st : ChatState) (sid : Nat)
    (hf : findSession st.sessions sid = none) :
    step st (.connect sid) = ({ st with sessions := st.sessions ++ [⟨sid, none⟩] }, []) := by
  simp [step, hf]

theorem step_addUser_noSession (st : ChatState) (sid : Nat) (name : String)
    (hf : findSession st.sessions sid = none) :
    step st (.addUser sid name) = (st, []) := by
  simp [step, hf]

theorem step_addUser_named (st : ChatState) (sid : Nat) (name : String) (s : Session) (u : String)
    (hf : findSession st.sessions sid = some s) (hu : s.username = some u) :
    step st (.addUser sid name) = (st, []) := by
  simp [step, hf, hu]

theorem step_addUser_anon (st : ChatState) (sid : Nat) (name : String) (s : Session)
    (hf : findSession st.sessions sid = some s) (hu : s.username = none) :
    step st (.addUser sid name) =
      (⟨⟨(st.userCnt.val + 1) % USIZE⟩, setUsername st.sessions sid name⟩,
       [⟨sid, .toSelf, "login", .login ((st.userCnt.val + 1) % USIZE), [sid]⟩,
        ⟨sid, .toOthers, "user joined",
          .userEvent ((st.userCnt.val + 1) % USIZE) name, othersOf st.sessions sid⟩]) := by
  simp [step, hf, hu, UserCnt.add_user]

theorem step_newMessage_noSession (st : ChatState) (sid : Nat) (text : String)
    (hf : findSession st.sessions sid = none) :
    step st (.newMessage sid text) = (st, []) := by
  simp [step, hf]

theorem step_newMessage_anon (st : ChatState) (sid : Nat) (text : String) (s : Session)
    (hf : findSession st.sessions sid = some s) (hu : s.username = none) :
    step st (.newMessage sid text) = (st, []) := by
  simp [step, hf, hu]

theorem step_newMessage_named (st : ChatState) (sid : Nat) (text : String) (s : Session)
    (u : String) (hf : findSession st.sessions sid = some s) (hu : s.username = some u) :
    step st (.newMessage sid text) =
      (st, [⟨sid, .toOthers, "new message", .message u text, othersOf st.sessions sid⟩]) := by
  simp [step, hf, hu]

theorem step_typingStart_anon (st : ChatState) (sid : Nat) (s : Session)
    (hf : findSession st.sessions sid = some s) (hu : s.username = none) :
    step st (.typingStart sid) = (st, []) := by
  simp [step, hf, hu]

theorem step_typingStart_named (st : ChatState) (sid : Nat) (s : Session) (u : String)
    (hf : findSession st.sessions sid = some s) (hu : s.username = some u) :
    step st (.typingStart sid) =
      (st, [⟨sid, .toOthers, "typing", .usernameOnly u, othersOf st.sessions sid⟩]) := by
  simp [step, hf, hu]

theorem step_typingStop_anon (st : ChatState) (sid : Nat) (s : Session)
    (hf : findSession st.sessions sid = some s) (hu : s.username = none) :
    step st (.typingStop sid) = (st, []) := by
  simp [step, hf, hu]

theorem step_typingStop_named (st : ChatState) (sid : Nat) (s : Session) (u : String)
    (hf : findSession st.sessions sid = some s) (hu : s.username = some u) :
    step st (.typingStop sid) =
      (st, [⟨sid, .toOthers, "stop typing", .usernameOnly u, othersOf st.sessions sid⟩]) := by
  simp [step, hf, hu]

theorem step_disconnect_noSession (st : ChatState) (sid : Nat)
    (hf : findSession st.sessions sid = none) :
    step st (.disconnect sid) = (st, []) := by
  simp [step, hf]

theorem step_disconnect_anon (st : ChatState) (sid : Nat) (s : Session)
    (hf : findSession st.sessions sid = some s) (hu : s.username = none) :
    step st (.disconnect sid) = ({ st with sessions := removeSession st.sessions sid }, []) := by
  simp [step, hf, hu]

theorem step_disconnect_named (st : ChatState) (sid : Nat) (s : Session) (u : String)
    (hf : findSession st.sessions sid = some s) (hu : s.username = some u) :
    step st (.disconnect sid) =
      (⟨⟨(st.userCnt.val + (USIZE - 1)) % USIZE⟩, removeSession st.sessions sid⟩,
       [⟨sid, .toOthers, "user left",
          .userEvent ((st.userCnt.val + (USIZE - 1)) % USIZE) u, othersOf st.sessions sid⟩]) := by
  simp [step, hf, hu, UserCnt.remove_user]

end SocketIoChat

namespace SocketIoChat

/-! ### The presence-counter invariant -/

/-- State invariant: socket ids are pairwise distinct, and the stored
counter value is the number of Named sessions reduced modulo `2 ^ 64`. -/
def Inv (st : ChatState) : Prop :=
  (st.sessions.map Session.sid).Nodup ∧ st.userCnt.val = countNamed st.sessions % USIZE

theorem one_lt_USIZE : 1 < USIZE := by norm_num [USIZE]

theorem add_one_mod (c : Nat) : (c % USIZE + 1) % USIZE = (c + 1) % USIZE := by
  conv_rhs => rw [Nat.add_mod]
  rw [Nat.mod_eq_of_lt one_lt_USIZE]

theorem sub_one_mod (c : Nat) (hc : 1 ≤ c) :
    (c % USIZE + (USIZE - 1)) % USIZE = (c - 1) % USIZE := by
  have hU : (USIZE - 1) % USIZE = USIZE - 1 :=
    Nat.mod_eq_of_lt (by norm_num [USIZE])
  have h2 : (c + (USIZE - 1)) % USIZE = (c % USIZE + (USIZE - 1)) % USIZE := by
    conv_lhs => rw [Nat.add_mod]
    rw [hU]
  have h3 : c + (USIZE - 1) = (c - 1) + USIZE := by
    have h0 : 0 < USIZE := lt_trans one_pos one_lt_USIZE
    omega
  rw [← h2, h3, Nat.add_mod_right]

theorem findSession_none_not_mem (L : List Session) (sid : Nat)
    (hf : findSession L sid = none) : sid ∉ L.map Session.sid := by
  rw [findSession, List.find?_eq_none] at hf
  intro hmem
  obtain ⟨t, ht, hts⟩ := List.mem_map.mp hmem
  have hne : t.sid ≠ sid := by simpa using hf t ht
  exact hne hts

theorem step_inv (st : ChatState) (e : InEvent) (h : Inv st) : Inv (step st e).1 := by
  obtain ⟨hnd, hcnt⟩ := h
  cases e with
  | connect sid =>
    cases hf : findSession st.sessions sid with
    | some s =>
      have hs : (findSession st.sessions sid).isSome := by simp [hf]
      rw [step_connect_dup st sid hs]
      exact ⟨hnd, hcnt⟩
    | none =>
      rw [step_connect_new st sid hf]
      refine ⟨?_, ?_⟩
      · simpa [List.nodup_append, hnd] using findSession_none_not_mem st.sessions sid hf
      · simpa [countNamed_append_anon] using hcnt
  | addUser sid name =>
    cases hf : findSession st.sessions sid with
    | none =>
      rw [step_addUser_noSession st sid name hf]
      exact ⟨hnd, hcnt⟩
    | some s =>
      cases hu : s.username with
      | some u =>
        rw [step_addUser_named st sid name s u hf hu]
        exact ⟨hnd, hcnt⟩
      | none =>
        rw [step_addUser_anon st sid name s hf hu]
        refine ⟨?_, ?_⟩
        · simpa [setUsername_sids] using hnd
        · rw [countNamed_setUsername st.sessions sid name s hf hu hnd]
          rw [hcnt, add_one_mod]
  | newMessage sid text =>
    cases hf : findSession st.sessions sid with
    | none =>
      rw [step_newMessage_noSession st sid text hf]
      exact ⟨hnd, hcnt⟩
    | some s =>
      cases hu : s.username with
      | none =>
        rw [step_newMessage_anon st sid text s hf hu]
        exact ⟨hnd, hcnt⟩
      | some u =>
        rw [step_newMessage_named st sid text s u hf hu]
        exact ⟨hnd, hcnt⟩
  | typingStart sid =>
    cases hf : findSession st.sessions sid with
    | none =>
      have : step st (.typingStart sid) = (st, []) := by simp [step, hf]
      rw [this]
      exact ⟨hnd, hcnt⟩
    | some s =>
      cases hu : s.username with
      | none =>
        rw [step_typingStart_anon st sid s hf hu]
        exact ⟨hnd, hcnt⟩
      | some u =>
        rw [step_typingStart_named st sid s u hf hu]
        exact ⟨hnd, hcnt⟩
  | typingStop sid =>
    cases hf : findSession st.sessions sid with
    | none =>
      have : step st (.typingStop sid) = (st, []) := by simp [step, hf]
      rw [this]
      exact ⟨hnd, hcnt⟩
    | some s =>
      cases hu : s.username with
      | none =>
        rw [step_typingStop_anon st sid s hf hu]
        exact ⟨hnd, hcnt⟩
      | some u =>
        rw [step_typingStop_named st sid s u hf hu]
        exact ⟨hnd, hcnt⟩
  | disconnect sid =>
    cases hf : findSession st.sessions sid with
    | none =>
      rw [step_disconnect_noSession st sid hf]
      exact ⟨hnd, hcnt⟩
    | some s =>
      have hrem := countNamed_removeSession st.sessions sid s hf hnd
      have hsub : ((removeSession st.sessions sid).map Session.sid).Nodup :=
        (removeSession_sids_sublist st.sessions sid).nodup hnd
      cases hu : s.username with
      | none =>
        rw [step_disconnect_anon st sid s hf hu]
        refine ⟨hsub, ?_⟩
        rw [hu] at hrem
        simp at hrem
        rw [hcnt, hrem]
      | some u =>
        rw [step_disconnect_named st sid s u hf hu]
        rw [hu] at hrem
        simp only [Option.isSome_some, if_pos] at hrem
        refine ⟨hsub, ?_⟩
        have hge : 1 ≤ countNamed st.sessions := by omega
        have hval : countNamed (removeSession st.sessions sid) = countNamed st.sessions - 1 := by
          omega
        rw [hcnt, sub_one_mod (countNamed st.sessions) hge, hval]

theorem runFrom_inv (st : ChatState) (es : List InEvent) (h : Inv st) :
    Inv (runFrom st es).1 := by
  induction es generalizing st with
  | nil => simpa [runFrom] using h
  | cons e es ih =>
    simp only [runFrom]
    exact ih (step st e).1 (step_inv st e h)

theorem countNamed_step_le (st : ChatState) (e : InEvent) (h : Inv st) :
    countNamed (step st e).1.sessions ≤ countNamed st.sessions + 1 := by
  obtain ⟨hnd, hcnt⟩ := h
  cases e with
  | connect sid =>
    cases hf : findSession st.sessions sid with
    | some s =>
      have hs : (findSession st.sessions sid).isSome := by simp [hf]
      rw [step_connect_dup st sid hs]
      exact Nat.le_succ _
    | none =>
      rw [step_connect_new st sid hf]
      simp [countNamed_append_anon]
  | addUser sid name =>
    cases hf : findSession st.sessions sid with
    | none =>
      rw [step_addUser_noSession st sid name hf]
      exact Nat.le_succ _
    | some s =>
      cases hu : s.username with
      | some u =>
        rw [step_addUser_named st sid name s u hf hu]
        exact Nat.le_succ _
      | none =>
        rw [step_addUser_anon st sid name s hf hu]
        rw [countNamed_setUsername st.sessions sid name s hf hu hnd]
  | newMessage sid text =>
    cases hf : findSession st.sessions sid with
    | none =>
      rw [step_newMessage_noSession st sid text hf]
      exact Nat.le_succ _
    | some s =>
      cases hu : s.username with
      | none =>
        rw [step_newMessage_anon st sid text s hf hu]
        exact Nat.le_succ _
      | some u =>
        rw [step_newMessage_named st sid text s u hf hu]
        exact Nat.le_succ _
  | typingStart sid =>
    cases hf : findSession st.sessions sid with
    | none =>
      have : step st (.typingStart sid) = (st, []) := by simp [step, hf]
      rw [this]
      exact Nat.le_succ _
    | some s =>
      cases hu : s.username with
      | none =>
        rw [step_typingStart_anon st sid s hf hu]
        exact Nat.le_succ _
      | some u =>
        rw [step_typingStart_named st sid s u hf hu]
        exact Nat.le_succ _
  | typingStop sid =>
    cases hf : findSession st.sessions sid with
    | none =>
      have : step st (.typingStop sid) = (st, []) := by simp [step, hf]
      rw [this]
      exact Nat.le_succ _
    | some s =>
      cases hu : s.username with
      | none =>
        rw [step_typingStop_anon st sid s hf hu]
        exact Nat.le_succ _
      | some u =>
        rw [step_typingStop_named st sid s u hf hu]
        exact Nat.le_succ _
  | disconnect sid =>
    cases hf : findSession st.sessions sid with
    | none =>
      rw [step_disconnect_noSession st sid hf]
      exact Nat.le_succ _
    | some s =>
      have hrem := countNamed_removeSession st.sessions sid s hf hnd
      cases hu : s.username with
      | none =>
        rw [step_disconnect_anon st sid s hf hu]
        rw [hu] at hrem
        simp at hrem
        show countNamed (removeSession st.sessions sid) ≤ countNamed st.sessions + 1
        omega
      | some u =>
        rw [step_disconnect_named st sid s u hf hu]
        rw [hu] at hrem
        simp only [Option.isSome_some, if_pos] at hrem
        show countNamed (removeSession st.sessions sid) ≤ countNamed st.sessions + 1
        omega

theorem countNamed_runFrom_le (st : ChatState) (es : List InEvent) (h : Inv st) :
    countNamed (runFrom st es).1.sessions ≤ countNamed st.sessions + es.length := by
  induction es generalizing st with
  | nil => simp [runFrom]
  | cons e es ih =>
    simp only [runFrom, List.length_cons]
    have h1 := countNamed_step_le st e h
    have h2 := ih (step st e).1 (step_inv st e h)
    omega

theorem initState_inv : Inv initState := by
  constructor
  · simp [initState]
  · simp [initState, countNamed]

end SocketIoChat

namespace SocketIoChat

/-! ### Observers used by claim statements -/

/-- Number of emissions with the given wire event name. -/
def countEvent (ems : List Emission) (name : String) : Nat :=
  (ems.filter (fun em => em.event == name)).length

theorem findSession_setUsername_self (L : List Session) (sid : Nat) (n : String) (s : Session)
    (hf : findSession L sid = some s) :
    findSession (setUsername L sid n) sid = some { s with username := some n } := by
  induction L with
  | nil => simp [findSession] at hf
  | cons a L ih =>
    by_cases heq : a.sid = sid
    · rw [findSession_cons_self a L sid heq] at hf
      have has : a = s := Option.some.inj hf
      have hb : (a.sid == sid) = true := by simpa using heq
      rw [setUsername_cons, if_pos hb,
          findSession_cons_self _ _ _ (show ({ a with username := some n }).sid = sid from heq),
          has]
    · rw [findSession_cons_ne a L sid heq] at hf
      have hb : (a.sid == sid) = false := by simpa using heq
      rw [setUsername_cons, if_neg (by simp [hb]),
          findSession_cons_ne a _ sid heq]
      exact ih hf

/-! ### Claim theorems C1 – C6 -/

/-- C1: for every sequence of join and disconnect events across any number of
connections (any trace of fewer than `2 ^ 64` events), after processing, the
presence counter equals the number of currently-connected sessions that are in
the Named state — never more, never less, and never negative (the counter is a
natural number equal to a count). -/
theorem presence_counter_matches_named_sessions (events : List InEvent)
    (h : events.length < USIZE) :
    (runChat events).1.userCnt.val = countNamed (runChat events).1.sessions := by
  have hinv := runFrom_inv initState events initState_inv
  have hle := countNamed_runFrom_le initState events initState_inv
  have h0 : countNamed initState.sessions = 0 := by simp [initState, countNamed]
  rw [runChat, hinv.2]
  exact Nat.mod_eq_of_lt (by omega)

theorem presence_counter_matches_named_sessions_witness :
    ([InEvent.connect 0, .addUser 0 "alice", .connect 1, .addUser 1 "bob",
      .disconnect 1, .connect 2] : List InEvent).length < USIZE ∧
    (runChat [InEvent.connect 0, .addUser 0 "alice", .connect 1, .addUser 1 "bob",
      .disconnect 1, .connect 2]).1.userCnt.val
      = countNamed (runChat [InEvent.connect 0, .addUser 0 "alice", .connect 1,
          .addUser 1 "bob", .disconnect 1, .connect 2]).1.sessions :=
  ⟨by norm_num [USIZE],
   presence_counter_matches_named_sessions
     [InEvent.connect 0, .addUser 0 "alice", .connect 1, .addUser 1 "bob",
      .disconnect 1, .connect 2] (by norm_num [USIZE])⟩

/-- C2: a join event arriving on a session that already registered an identity
is a complete no-op (state unchanged, no emissions); consequently the concrete
double-join trace increments the counter exactly once, leaves the stored
identity unchanged, and produces exactly one `"login"` and one
`"user joined"` emission in total. -/
theorem duplicate_join_is_noop (st : ChatState) (sid : Nat) (name : String)
    (s : Session) (u : String)
    (hf : findSession st.sessions sid = some s) (hu : s.username = some u) :
    step st (.addUser sid name) = (st, []) ∧
    (runChat [.connect 0, .addUser 0 "alice", .addUser 0 "alice"]).1.userCnt.val = 1 ∧
    findSession (runChat [.connect 0, .addUser 0 "alice",
      .addUser 0 "alice"]).1.sessions 0 = some ⟨0, some "alice"⟩ ∧
    countEvent (runChat [.connect 0, .addUser 0 "alice", .addUser 0 "alice"]).2 "login" = 1 ∧
    countEvent (runChat [.connect 0, .addUser 0 "alice",
      .addUser 0 "alice"]).2 "user joined" = 1 := by
  refine ⟨step_addUser_named st sid name s u hf hu, ?_, ?_, ?_, ?_⟩ <;> decide

theorem duplicate_join_is_noop_witness :
    findSession (ChatState.mk ⟨1⟩ [⟨0, some "alice"⟩]).sessions 0 = some ⟨0, some "alice"⟩ ∧
    step ⟨⟨1⟩, [⟨0, some "alice"⟩]⟩ (.addUser 0 "alice") = (⟨⟨1⟩, [⟨0, some "alice"⟩]⟩, []) :=
  ⟨by decide,
   (duplicate_join_is_noop ⟨⟨1⟩, [⟨0, some "alice"⟩]⟩ 0 "alice" ⟨0, some "alice"⟩ "alice"
      (by decide) rfl).1⟩

/-- C3 counterexample: calling `UserCnt::remove_user` on a zero counter is
permitted, but the returned `usize`, read as the unsigned integer it is,
equals `2 ^ 64 - 1` and is not a negative value. -/
theorem remove_user_at_zero_not_negative :
    ((UserCnt.mk 0).remove_user).2 = USIZE - 1 ∧
    ¬ (((((UserCnt.mk 0).remove_user).2 : Nat) : Int) < 0) := by
  constructor
  · decide
  · decide

/-- C3 amended: decrement on an already-zero counter is permitted (no guard)
and wraps modulo `2 ^ 64`: the counter is an unsigned `usize`, so the stored
and returned value is `usize::MAX = 2 ^ 64 - 1`, a huge non-negative value
rather than a negative one (in a debug build the trailing `- 1` of
`remove_user` would instead panic on overflow). -/
theorem remove_user_at_zero_wraps :
    (UserCnt.mk 0).remove_user = (⟨USIZE - 1⟩, USIZE - 1) := by
  decide

/-- C4 counterexample: a connection that never joined sends a chat message
(or typing events) while another connection is present — no emission at all is
produced, in particular no `"new message"` broadcast with an empty identity:
the `Extension::<Username>` extractor fails and the handler is never invoked. -/
theorem anonymous_message_drops_cex :
    (runChat [.connect 0, .connect 1, .newMessage 0 "hi"]).2 = [] ∧
    (runChat [.connect 0, .connect 1, .typingStart 0]).2 = [] ∧
    (runChat [.connect 0, .connect 1, .typingStop 0]).2 = [] := by
  refine ⟨?_, ?_, ?_⟩ <;> decide

/-- C4 amended: for a connection in the Anonymous state, an inbound
chat-message event results in no broadcast at all (the handler is skipped
because the `Extension::<Username>` extractor fails); the same holds for
typing-start and typing-stop events.  State is unchanged as well. -/
theorem anonymous_message_drops (st : ChatState) (sid : Nat) (text : String) (s : Session)
    (hf : findSession st.sessions sid = some s) (hu : s.username = none) :
    step st (.newMessage sid text) = (st, []) ∧
    step st (.typingStart sid) = (st, []) ∧
    step st (.typingStop sid) = (st, []) :=
  ⟨step_newMessage_anon st sid text s hf hu,
   step_typingStart_anon st sid s hf hu,
   step_typingStop_anon st sid s hf hu⟩

theorem anonymous_message_drops_witness :
    findSession (ChatState.mk ⟨1⟩ [⟨0, none⟩, ⟨1, some "bob"⟩]).sessions 0 = some ⟨0, none⟩ ∧
    step ⟨⟨1⟩, [⟨0, none⟩, ⟨1, some "bob"⟩]⟩ (.newMessage 0 "hi")
      = (⟨⟨1⟩, [⟨0, none⟩, ⟨1, some "bob"⟩]⟩, []) :=
  ⟨by decide,
   (anonymous_message_drops ⟨⟨1⟩, [⟨0, none⟩, ⟨1, some "bob"⟩]⟩ 0 "hi" ⟨0, none⟩
      (by decide) rfl).1⟩

/-- C5: a connection that disconnects while still Anonymous is silently
ignored: the presence counter is not decremented and no `"user left"` (indeed
no emission at all) is broadcast. -/
theorem anonymous_disconnect_silent (st : ChatState) (sid : Nat) (s : Session)
    (hf : findSession st.sessions sid = some s) (hu : s.username = none) :
    (step st (.disconnect sid)).1.userCnt = st.userCnt ∧
    (step st (.disconnect sid)).2 = [] := by
  rw [step_disconnect_anon st sid s hf hu]
  exact ⟨rfl, rfl⟩

theorem anonymous_disconnect_silent_witness :
    findSession (ChatState.mk ⟨1⟩ [⟨0, none⟩, ⟨1, some "bob"⟩]).sessions 0 = some ⟨0, none⟩ ∧
    (step ⟨⟨1⟩, [⟨0, none⟩, ⟨1, some "bob"⟩]⟩ (.disconnect 0)).1.userCnt = ⟨1⟩ ∧
    (step ⟨⟨1⟩, [⟨0, none⟩, ⟨1, some "bob"⟩]⟩ (.disconnect 0)).2 = [] :=
  ⟨by decide,
   (anonymous_disconnect_silent ⟨⟨1⟩, [⟨0, none⟩, ⟨1, some "bob"⟩]⟩ 0 ⟨0, none⟩
      (by decide) rfl).1,
   (anonymous_disconnect_silent ⟨⟨1⟩, [⟨0, none⟩, ⟨1, some "bob"⟩]⟩ 0 ⟨0, none⟩
      (by decide) rfl).2⟩

/-- C6 counterexample: a join event with the empty string as name does
register an identity: after `connect 0, addUser 0 ""` the session stores the
empty identity, the presence counter was incremented, and one `"login"` emit
occurred — refuting the claim that an empty-name join does not register. -/
theorem empty_name_registers_cex :
    (runChat [.connect 0, .addUser 0 ""]).1 = ⟨⟨1⟩, [⟨0, some ""⟩]⟩ ∧
    countEvent (runChat [.connect 0, .addUser 0 ""]).2 "login" = 1 ∧
    countEvent (runChat [.connect 0, .addUser 0 ""]).2 "user joined" = 1 := by
  refine ⟨?_, ?_, ?_⟩ <;> decide

/-- C6 amended: the `add user` handler performs no emptiness check: a join
whose name is the empty string behaves exactly like any other first join on a
session — it stores `""` as the identity, increments the presence counter,
and emits `"login"` to the joiner and `"user joined"` to the others.  Stored
identities are therefore not necessarily non-empty strings. -/
theorem empty_name_join_registers (st : ChatState) (sid : Nat) (s : Session)
    (hf : findSession st.sessions sid = some s) (hu : s.username = none) :
    findSession (step st (.addUser sid "")).1.sessions sid
      = some { s with username := some "" } ∧
    (step st (.addUser sid "")).1.userCnt.val = (st.userCnt.val + 1) % USIZE ∧
    (step st (.addUser sid "")).2.map Emission.event = ["login", "user joined"] := by
  rw [step_addUser_anon st sid "" s hf hu]
  exact ⟨findSession_setUsername_self st.sessions sid "" s hf, rfl, rfl⟩

theorem empty_name_join_registers_witness :
    findSession (ChatState.mk ⟨0⟩ [⟨0, none⟩]).sessions 0 = some ⟨0, none⟩ ∧
    findSession (step ⟨⟨0⟩, [⟨0, none⟩]⟩ (.addUser 0 "")).1.sessions 0
      = some ⟨0, some ""⟩ ∧
    (step ⟨⟨0⟩, [⟨0, none⟩]⟩ (.addUser 0 "")).1.userCnt.val = 1 % USIZE :=
  ⟨by decide,
   (empty_name_join_registers ⟨⟨0⟩, [⟨0, none⟩]⟩ 0 ⟨0, none⟩ (by decide) rfl).1,
   (empty_name_join_registers ⟨⟨0⟩, [⟨0, none⟩]⟩ 0 ⟨0, none⟩ (by decide) rfl).2.1⟩

end SocketIoChat

namespace SocketIoChat

/-! ### Audience correctness of emissions (C7, C8) -/

theorem not_mem_othersOf (L : List Session) (sid : Nat) : sid ∉ othersOf L sid := by
  intro h
  obtain ⟨t, ht, hts⟩ := List.mem_map.mp h
  have hp := List.of_mem_filter ht
  simp at hp
  exact hp hts

theorem mem_othersOf (L : List Session) (sid : Nat) (s : Session) (hs : s ∈ L)
    (hne : s.sid ≠ sid) : s.sid ∈ othersOf L sid :=
  List.mem_map_of_mem Session.sid (List.mem_filter.mpr ⟨hs, by simpa using hne⟩)

theorem step_emissions_shape (st : ChatState) (e : InEvent) (em : Emission)
    (hmem : em ∈ (step st e).2) :
    (em.kind = .toSelf ∧ em.recipients = [em.origin]) ∨
    (em.kind = .toOthers ∧ em.recipients = othersOf st.sessions em.origin) := by
  cases e with
  | connect sid =>
    cases hf : findSession st.sessions sid with
    | some s =>
      have hs : (findSession st.sessions sid).isSome := by simp [hf]
      rw [step_connect_dup st sid hs] at hmem
      simp at hmem
    | none =>
      rw [step_connect_new st sid hf] at hmem
      simp at hmem
  | addUser sid name =>
    cases hf : findSession st.sessions sid with
    | none =>
      rw [step_addUser_noSession st sid name hf] at hmem
      simp at hmem
    | some s =>
      cases hu : s.username with
      | some u =>
        rw [step_addUser_named st sid name s u hf hu] at hmem
        simp at hmem
      | none =>
        rw [step_addUser_anon st sid name s hf hu] at hmem
        simp only [List.mem_cons, List.mem_singleton, List.not_mem_nil, or_false] at hmem
        rcases hmem with h | h <;> subst h
        · exact Or.inl ⟨rfl, rfl⟩
        · exact Or.inr ⟨rfl, rfl⟩
  | newMessage sid text =>
    cases hf : findSession st.sessions sid with
    | none =>
      rw [step_newMessage_noSession st sid text hf] at hmem
      simp at hmem
    | some s =>
      cases hu : s.username with
      | none =>
        rw [step_newMessage_anon st sid text s hf hu] at hmem
        simp at hmem
      | some u =>
        rw [step_newMessage_named st sid text s u hf hu] at hmem
        simp only [List.mem_singleton] at hmem
        subst hmem
        exact Or.inr ⟨rfl, rfl⟩
  | typingStart sid =>
    cases hf : findSession st.sessions sid with
    | none =>
      have hnostep : step st (.typingStart sid) = (st, []) := by simp [step, hf]
      rw [hnostep] at hmem
      simp at hmem
    | some s =>
      cases hu : s.username with
      | none =>
        rw [step_typingStart_anon st sid s hf hu] at hmem
        simp at hmem
      | some u =>
        rw [step_typingStart_named st sid s u hf hu] at hmem
        simp only [List.mem_singleton] at hmem
        subst hmem
        exact Or.inr ⟨rfl, rfl⟩
  | typingStop sid =>
    cases hf : findSession st.sessions sid with
    | none =>
      have hnostep : step st (.typingStop sid) = (st, []) := by simp [step, hf]
      rw [hnostep] at hmem
      simp at hmem
    | some s =>
      cases hu : s.username with
      | none =>
        rw [step_typingStop_anon st sid s hf hu] at hmem
        simp at hmem
      | some u =>
        rw [step_typingStop_named st sid s u hf hu] at hmem
        simp only [List.mem_singleton] at hmem
        subst hmem
        exact Or.inr ⟨rfl, rfl⟩
  | disconnect sid =>
    cases hf : findSession st.sessions sid with
    | none =>
      rw [step_disconnect_noSession st sid hf] at hmem
      simp at hmem
    | some s =>
      cases hu : s.username with
      | none =>
        rw [step_disconnect_anon st sid s hf hu] at hmem
        simp at hmem
      | some u =>
        rw [step_disconnect_named st sid s u hf hu] at hmem
        simp only [List.mem_singleton] at hmem
        subst hmem
        exact Or.inr ⟨rfl, rfl⟩

/-- C7: for every emission produced by any handler step: a self-emit
(`s.emit`) is delivered exactly to the originating session and to nobody
else; a broadcast (`s.broadcast().emit`) is never delivered to the
originator, and is delivered to every other session currently connected to
the namespace. -/
theorem emit_audience_correct (st : ChatState) (e : InEvent) (em : Emission)
    (hmem : em ∈ (step st e).2) :
    (em.kind = .toSelf → em.recipients = [em.origin]) ∧
    (em.kind = .toOthers → em.origin ∉ em.recipients ∧
      ∀ s ∈ st.sessions, s.sid ≠ em.origin → s.sid ∈ em.recipients) := by
  have hshape := step_emissions_shape st e em hmem
  constructor
  · intro hk
    rcases hshape with ⟨_, h⟩ | ⟨hk2, _⟩
    · exact h
    · simp [hk] at hk2
  · intro hk
    rcases hshape with ⟨hk2, _⟩ | ⟨_, hr⟩
    · simp [hk] at hk2
    · rw [hr]
      exact ⟨not_mem_othersOf st.sessions em.origin,
             fun s hs hne => mem_othersOf st.sessions em.origin s hs hne⟩

theorem emit_audience_correct_witness :
    (⟨0, .toOthers, "typing", .usernameOnly "a", [1]⟩ : Emission)
      ∈ (step ⟨⟨1⟩, [⟨0, some "a"⟩, ⟨1, none⟩]⟩ (.typingStart 0)).2 ∧
    ((0 : Nat) ∉ ([1] : List Nat) ∧
      ∀ s ∈ (ChatState.mk ⟨1⟩ [⟨0, some "a"⟩, ⟨1, none⟩]).sessions,
        s.sid ≠ 0 → s.sid ∈ ([1] : List Nat)) :=
  ⟨by decide,
   (emit_audience_correct ⟨⟨1⟩, [⟨0, some "a"⟩, ⟨1, none⟩]⟩ (.typingStart 0)
      ⟨0, .toOthers, "typing", .usernameOnly "a", [1]⟩ (by decide)).2 rfl⟩

/-- The C8 scenario trace: connections A (= socket 0) and B (= socket 1)
connect, then join in order with names `"alice"` and `"bob"`. -/
def scenarioAB : List InEvent :=
  [.connect 0, .connect 1, .addUser 0 "alice", .addUser 1 "bob"]

/-- C8: in the A-then-B join scenario, A receives `login {numUsers: 1}` and
later `user joined {numUsers: 2, username: "bob"}`; B receives `login
{numUsers: 2}` (and the `user joined` for A's earlier join) but no
`user joined` event for its own join: each join's `login` self-emit and
`user joined` broadcast carry the counter value produced by that join's
increment. -/
theorem join_scenario_ab :
    receivedBy (runChat scenarioAB).2 0 =
      [("login", .login 1), ("user joined", .userEvent 2 "bob")] ∧
    receivedBy (runChat scenarioAB).2 1 =
      [("user joined", .userEvent 1 "alice"), ("login", .login 2)] := by
  refine ⟨?_, ?_⟩ <;> decide

/-! ### Best-effort delivery (C9) -/

/-- Modelled from the spec: per-recipient best-effort delivery of one
emission.  The fan-out loop over individual recipients lives inside the
socketioxide dependency, not under `src/` (the repository's handlers only
call `emit(...).ok()`, discarding any error), so delivery is modelled from
§4.3/§7(b) of the spec: each recipient either receives the payload or
individually fails, and a failure is swallowed.  `failing r = true` means
delivery to recipient `r` fails (e.g. its connection closed mid-broadcast);
the result is the list of recipients actually reached. -/
def deliver (failing : Nat → Bool) (em : Emission) : List Nat :=
  em.recipients.filter (fun r => !(failing r))

/-- Delivery-aware trace processing: handler state evolves exactly as in
`runFrom`, and each emission is paired with the recipients actually
reached under the failure pattern `failing`. -/
def runFromD (failing : Nat → Bool) (st : ChatState) :
    List InEvent → ChatState × List (Emission × List Nat)
  | [] => (st, [])
  | e :: es =>
    let p := step st e
    let q := runFromD failing p.1 es
    (q.1, p.2.map (fun em => (em, deliver failing em)) ++ q.2)

/-- C9: delivery failures are swallowed: a recipient that does not itself
fail receives the payload regardless of which other recipients fail (no
abort of the remaining fan-out), and the sending handlers complete
normally — the state produced by processing any trace is identical for
every failure pattern, i.e. no error is surfaced to the sender. -/
theorem delivery_failures_swallowed (failing : Nat → Bool) (st : ChatState)
    (es : List InEvent) (em : Emission) (r : Nat)
    (hr : r ∈ em.recipients) (hok : failing r = false) :
    r ∈ deliver failing em ∧ (runFromD failing st es).1 = (runFrom st es).1 := by
  constructor
  · rw [deliver]
    exact List.mem_filter.mpr ⟨hr, by simp [hok]⟩
  · induction es generalizing st with
    | nil => rfl
    | cons e es ih =>
      simp only [runFromD, runFrom]
      exact ih (step st e).1

theorem delivery_failures_swallowed_witness :
    ((1 : Nat) ∈ (⟨0, .toOthers, "x", .login 1, [1, 2, 3]⟩ : Emission).recipients ∧
      (fun r => r == 2) 1 = false) ∧
    ((1 : Nat) ∈ deliver (fun r => r == 2) ⟨0, .toOthers, "x", .login 1, [1, 2, 3]⟩ ∧
      (runFromD (fun r => r == 2) initState [.connect 0, .addUser 0 "a", .connect 2]).1
        = (runFrom initState [.connect 0, .addUser 0 "a", .connect 2]).1) :=
  ⟨⟨by decide, by decide⟩,
   delivery_failures_swallowed (fun r => r == 2) initState
     [.connect 0, .addUser 0 "a", .connect 2]
     ⟨0, .toOthers, "x", .login 1, [1, 2, 3]⟩ 1 (by decide) (by decide)⟩

end SocketIoChat

namespace AxumGarde

/-!
Shallow embedding of `src/axum_garde/src/with_validation.rs`.  The
`FromRequest` / `FromRequestParts` implementations are generic over the
inner extractor, the router state and the validation context, so the
embedding is parameterised by: the inner extractor (`Extractor::from_request`
resp. `Extractor::from_request_parts`), `IntoInner::into_inner`,
`FromRef::from_ref`, and the garde check that decides whether validation of
a value in a context fails (returning `some report`) or passes (`none`).
-/

/-- Model of `garde::Valid<T>`: the wrapper garde returns around a value
that passed validation. -/
structure Valid (ι : Type) where
  val : ι

/-- Model of `WithValidation<Extractor>`: wraps `Valid<Extractor::Inner>`. -/
structure WithValidation (ι : Type) where
  valid : Valid ι

/-- The two rejection paths of `WithValidationRejection`: the inner
extractor's rejection, or garde's validation report (converted by the `?`
operator in the source). -/
inductive WithValidationRejection (ε ρ : Type) where
  | extractionError (e : ε)
  | validationRejection (r : ρ)

/-- Model of garde's `Unvalidated::new(value).validate_with(&ctx)` (code of
the garde dependency, not of this repository): runs the check; on success
returns `Valid` wrapping the same value, on failure returns the report. -/
def validate_with {ι γ ρ : Type} (check : γ → ι → Option ρ) (value : ι) (ctx : γ) :
    Except ρ (Valid ι) :=
  match check ctx value with
  | some r => Except.error r
  | none => Except.ok ⟨value⟩

/-- Model of `WithValidation::from_request`
(`src/axum_garde/src/with_validation.rs`, lines 91–101): run the inner
extractor, mapping its error to `ExtractionError`; extract the context from
the router state with `FromRef::from_ref`; unwrap with `into_inner`;
validate; wrap the validated value. -/
def from_request {Req St Ext Inn Ctx ε ρ : Type}
    (extractor : Req → St → Except ε Ext)
    (into_inner : Ext → Inn)
    (from_ref : St → Ctx)
    (check : Ctx → Inn → Option ρ)
    (req : Req) (state : St) :
    Except (WithValidationRejection ε ρ) (WithValidation Inn) :=
  match extractor req state with
  | .error e => .error (.extractionError e)
  | .ok v =>
    let ctx := from_ref state
    let value := into_inner v
    match validate_with check value ctx with
    | .error r => .error (.validationRejection r)
    | .ok valid => .ok ⟨valid⟩

/-- Model of `WithValidation::from_request_parts`
(`src/axum_garde/src/with_validation.rs`, lines 69–79): identical to
`from_request` except that the inner extractor runs on the request parts. -/
def from_request_parts {Parts St Ext Inn Ctx ε ρ : Type}
    (pextractor : Parts → St → Except ε Ext)
    (into_inner : Ext → Inn)
    (from_ref : St → Ctx)
    (check : Ctx → Inn → Option ρ)
    (parts : Parts) (state : St) :
    Except (WithValidationRejection ε ρ) (WithValidation Inn) :=
  match pextractor parts state with
  | .error e => .error (.extractionError e)
  | .ok v =>
    let ctx := from_ref state
    let value := into_inner v
    match validate_with check value ctx with
    | .error r => .error (.validationRejection r)
    | .ok valid => .ok ⟨valid⟩

/-- C10: `WithValidation` extraction returns `Ok` exactly when the inner
extractor succeeds and garde validation of the extracted inner value passes
with the context taken from the router state; the `Ok` value wraps exactly
the inner value the extractor produced; an inner-extractor failure is
returned as `ExtractionError`; a validation failure is returned as the
validation rejection; and `from_request_parts` behaves identically to
`from_request`. -/
theorem with_validation_extraction_correct {Req Parts St Ext Inn Ctx ε ρ : Type}
    (extractor : Req → St → Except ε Ext) (pextractor : Parts → St → Except ε Ext)
    (into_inner : Ext → Inn) (from_ref : St → Ctx) (check : Ctx → Inn → Option ρ)
    (req : Req) (parts : Parts) (state : St) :
    (((from_request extractor into_inner from_ref check req state).isOk = true ↔
        ∃ v, extractor req state = Except.ok v ∧
          check (from_ref state) (into_inner v) = none) ∧
     (∀ v, extractor req state = Except.ok v →
        check (from_ref state) (into_inner v) = none →
        from_request extractor into_inner from_ref check req state
          = Except.ok ⟨⟨into_inner v⟩⟩) ∧
     (∀ e, extractor req state = Except.error e →
        from_request extractor into_inner from_ref check req state
          = Except.error (.extractionError e)) ∧
     (∀ v r, extractor req state = Except.ok v →
        check (from_ref state) (into_inner v) = some r →
        from_request extractor into_inner from_ref check req state
          = Except.error (.validationRejection r))) ∧
    from_request_parts pextractor into_inner from_ref check parts state
      = from_request pextractor into_inner from_ref check parts state := by
  refine ⟨⟨?_, ?_, ?_, ?_⟩, rfl⟩
  · cases hx : extractor req state with
    | error e => simp [from_request, hx, validate_with, Except.isOk, Except.toBool]
    | ok v =>
      cases hc : check (from_ref state) (into_inner v) with
      | some r => simp [from_request, hx, validate_with, hc, Except.isOk, Except.toBool]
      | none => simp [from_request, hx, validate_with, hc, Except.isOk, Except.toBool]
  · intro v hx hc
    simp [from_request, hx, validate_with, hc]
  · intro e hx
    simp [from_request, hx]
  · intro v r hx hc
    simp [from_request, hx, validate_with, hc]

theorem with_validation_extraction_correct_witness :
    from_request (fun (r : Nat) (s : Nat) => if r = 0 then Except.error 7 else Except.ok (r + s))
      (fun x => x * 2) (fun (s : Nat) => s) (fun c v => if v < c then some 9 else none) 3 1
      = Except.ok ⟨⟨8⟩⟩ :=
  ((with_validation_extraction_correct
      (fun (r : Nat) (s : Nat) => if r = 0 then Except.error 7 else Except.ok (r + s))
      (fun (p : Nat) (s : Nat) => Except.ok (p + s))
      (fun x => x * 2) (fun (s : Nat) => s) (fun c v => if v < c then some 9 else none)
      3 0 1).1.2.1) 4 (by norm_num) (by norm_num)

end AxumGarde
